import Mathlib

/-!
Shallow embedding of the gesture-to-note pipeline of `src/app.js`
(hand_gesture_music).  JavaScript numbers are idealized as exact
rationals; the Euclidean distances computed with `Math.sqrt` are
embedded through their squares wherever the source only compares a
distance against a nonnegative threshold (`sqrt d > t` iff `d > t^2`,
proved in `tipMovement_gt_iff`), which keeps every per-finger test
decidable.  The palm-motion test averages five square roots and is
therefore kept as a real-valued proposition (`isPalmMoving`).
-/

/-- Movement sensitivity threshold, `movementThreshold = 0.015` at
`src/app.js:390`. -/
def movementThreshold : ℚ := 0.015

/-- Palm movement threshold, `palmMovementThreshold = 0.02` at
`src/app.js:426`. -/
def palmMovementThreshold : ℚ := 0.02

/-- The note scales of `src/app.js:20-26`; `cMajor` is the default
`currentScale` (line 29). -/
def cMajor : List String := ["C4", "D4", "E4", "F4", "G4", "A4", "B4", "C5"]

/-- Scale `gMajor` of `src/app.js:22`. -/
def gMajor : List String := ["G3", "A3", "B3", "C4", "D4", "E4", "F#4", "G4"]

/-- Scale `fMajor` of `src/app.js:23`. -/
def fMajor : List String := ["F3", "G3", "A3", "Bb3", "C4", "D4", "E4", "F4"]

/-- Scale `dMinor` of `src/app.js:24`. -/
def dMinor : List String := ["D3", "E3", "F3", "G3", "A3", "Bb3", "C4", "D4"]

/-- Scale `aMinor` of `src/app.js:25`. -/
def aMinor : List String := ["A3", "B3", "C4", "D4", "E4", "F4", "G4", "A4"]

/-- One element of the `positions` array built by
`calculateFingerPositions` (`src/app.js:342-385`): fingertip
coordinates, wrist-relative offsets, extension and normalized height. -/
structure FingerPosition where
  x : ℚ
  y : ℚ
  z : ℚ
  relativeX : ℚ
  relativeY : ℚ
  relativeZ : ℚ
  extension : ℚ
  height : ℚ
  deriving DecidableEq

/-- A frame of five per-finger feature records (thumb..pinky, indices
0..4), the output of `calculateFingerPositions`. -/
def FingerPositions : Type := Fin 5 → FingerPosition

/-- The quantity `Math.abs(current.extension - last.extension)` of
`src/app.js:397`. -/
def extensionChange (cur last : FingerPositions) (i : Fin 5) : ℚ :=
  |(cur i).extension - (last i).extension|

/-- The square of the fingertip displacement `tipMovement` of
`src/app.js:400-404` (the source takes `Math.sqrt` of exactly this sum of
squares; comparisons against nonnegative thresholds go through the
square, see `tipMovement_gt_iff`). -/
def tipMovementSq (cur last : FingerPositions) (i : Fin 5) : ℚ :=
  ((cur i).x - (last i).x) ^ 2 + ((cur i).y - (last i).y) ^ 2 +
    ((cur i).z - (last i).z) ^ 2

theorem tipMovementSq_nonneg (cur last : FingerPositions) (i : Fin 5) :
    0 ≤ tipMovementSq cur last i := by
  unfold tipMovementSq
  positivity

/-- Bridge between the embedded squared comparison and the source comparison
`tipMovement > movementThreshold` (`src/app.js:407`), where
`tipMovement = Math.sqrt (tipMovementSq ...)`. -/
theorem tipMovement_gt_iff (cur last : FingerPositions) (i : Fin 5) :
    Real.sqrt ((tipMovementSq cur last i : ℚ) : ℝ) > ((movementThreshold : ℚ) : ℝ) ↔
      tipMovementSq cur last i > movementThreshold ^ 2 := by
  have ht : (0 : ℝ) ≤ ((movementThreshold : ℚ) : ℝ) := by
    norm_num [movementThreshold]
  constructor
  · intro h
    have : ((movementThreshold : ℚ) : ℝ) ^ 2 < ((tipMovementSq cur last i : ℚ) : ℝ) :=
      (Real.lt_sqrt ht).mp h
    have h2 : ((movementThreshold ^ 2 : ℚ) : ℝ) < ((tipMovementSq cur last i : ℚ) : ℝ) := by
      push_cast
      push_cast at this
      linarith
    exact_mod_cast h2
  · intro h
    have h2 : ((movementThreshold ^ 2 : ℚ) : ℝ) < ((tipMovementSq cur last i : ℚ) : ℝ) := by
      exact_mod_cast h
    have hlt : ((movementThreshold : ℚ) : ℝ) ^ 2 < ((tipMovementSq cur last i : ℚ) : ℝ) := by
      push_cast at h2
      linarith
    exact (Real.lt_sqrt ht).mpr hlt

/-- The candidate test of `src/app.js:407`:
`extensionChange > movementThreshold * 0.8 || tipMovement > movementThreshold`
(the second disjunct through its square). -/
def isCandidate (cur last : FingerPositions) (i : Fin 5) : Bool :=
  decide (extensionChange cur last i > movementThreshold * 0.8) ||
    decide (tipMovementSq cur last i > movementThreshold ^ 2)

/-- The palm-motion test `isPalmMovingSignificantly`
(`src/app.js:423-453`): the average of the five per-finger tip
displacements (the source iterates `fingerBases = [0,1,2,3,4]` over the
same `positions` array) exceeds `palmMovementThreshold`.  A pure
function of the two frames; the source recomputes it per candidate
finger with the same result. -/
def isPalmMoving (cur last : FingerPositions) : Prop :=
  (∑ i : Fin 5, Real.sqrt ((tipMovementSq cur last i : ℚ) : ℝ)) / 5 >
    ((palmMovementThreshold : ℚ) : ℝ)

/-- The moved-finger loop of `detectFingerMovement`
(`src/app.js:388-420`), keeping indices as `Fin 5`.  The boolean
`palmMoving` stands for the value of `isPalmMovingSignificantly` on the
same pair of frames (a pure function of the frames, so passed once);
`isPalmMoving` characterizes it.  A finger enters the list when it is a
candidate and either the palm is not moving or its extension change
exceeds `movementThreshold * 1.5` (`src/app.js:412`). -/
def detectMoved (palmMoving : Bool) (cur last : FingerPositions) : List (Fin 5) :=
  (List.finRange 5).filter fun i =>
    isCandidate cur last i &&
      (!palmMoving || decide (extensionChange cur last i > movementThreshold * 1.5))

/-- `detectFingerMovement` (`src/app.js:388-420`): the list of plain
finger indices judged moved this frame. -/
def detectFingerMovement (palmMoving : Bool) (cur last : FingerPositions) : List ℕ :=
  (detectMoved palmMoving cur last).map Fin.val

/-- The clamped note index of `src/app.js:475-476`:
`Math.max(0, Math.min(scale.length - 1, Math.floor(height * scale.length)))`. -/
def clampedIndex (scale : List String) (height : ℚ) : ℤ :=
  max 0 (min ((scale.length : ℤ) - 1) ⌊height * (scale.length : ℚ)⌋)

/-- The pitch mapping of `src/app.js:474-479`: resolve a finger height
to a note of the scale through the clamped index.  An out-of-range
lookup yields the JavaScript `undefined`; the clamp keeps it in range
for every nonempty scale. -/
def noteForHeight (scale : List String) (height : ℚ) : String :=
  scale.getD (clampedIndex scale height).toNat "undefined"

/-- The `notesToPlay` accumulation loop of `src/app.js:470-481`: one
note per moved finger, in moved-finger order. -/
def notesToPlay (scale : List String) (positions : FingerPositions)
    (movedFingers : List (Fin 5)) : List String :=
  movedFingers.map fun i => noteForHeight scale (positions i).height

/-- Commands issued to the external synthesizer handle (and the one
scheduled timer the controller sets).  `attackMany`/`attackSingle` are
`triggerAttack` with an array respectively a single note;
`attackReleaseMany`/`attackReleaseSingle` are `triggerAttackRelease`
with the duration string; `autoReleaseScheduled` is the delayed bass
release timer of `src/app.js:506-513`; `warnUnknown` is the
`console.warn` of line 496; `dispose` is `synth.dispose()`. -/
inductive SynthEvent where
  | releaseAll : SynthEvent
  | triggerRelease : SynthEvent
  | attackMany : List String → SynthEvent
  | attackSingle : String → SynthEvent
  | attackReleaseMany : List String → String → SynthEvent
  | attackReleaseSingle : String → String → SynthEvent
  | warnUnknown : SynthEvent
  | autoReleaseScheduled : ℕ → SynthEvent
  | dispose : SynthEvent
  deriving DecidableEq

/-- Events that stop currently sounding notes. -/
def SynthEvent.isStop : SynthEvent → Bool
  | SynthEvent.releaseAll => true
  | SynthEvent.triggerRelease => true
  | _ => false

/-- Events that start one or more notes. -/
def SynthEvent.isStart : SynthEvent → Bool
  | SynthEvent.attackMany _ => true
  | SynthEvent.attackSingle _ => true
  | SynthEvent.attackReleaseMany _ _ => true
  | SynthEvent.attackReleaseSingle _ _ => true
  | _ => false

/-- The externally supplied synthesizer handle, abstracted to what the
source inspects: `present` is the truthiness of the global `synth`;
the `has...` fields are the method-presence probes
(`synth.releaseAll`, `synth.triggerRelease`, `synth.triggerAttack`,
`synth.triggerAttackRelease`, `synth.dispose`);
`supportsConcurrentNotes` records whether the voice can sound several
notes at once (the polyphony the spec speaks of — the source never
inspects it); `attackThrows` and `attackReleaseThrows` model the
corresponding calls throwing. -/
structure SynthHandle where
  present : Bool
  hasReleaseAll : Bool
  hasTriggerRelease : Bool
  hasTriggerAttack : Bool
  hasTriggerAttackRelease : Bool
  hasDispose : Bool
  supportsConcurrentNotes : Bool
  attackThrows : Bool
  attackReleaseThrows : Bool
  deriving DecidableEq

/-- The playback state mutated by the controller: the globals
`currentNotes` and `isPlaying` (`src/app.js:14,16`). -/
structure PlaybackState where
  currentNotes : List String
  isPlaying : Bool
  deriving DecidableEq

/-- Result of one controller call: the updated playback state and the
trace of synthesizer commands, in issue order. -/
structure PlayResult where
  state : PlaybackState
  events : List SynthEvent
  deriving DecidableEq

/-- The release step used at `src/app.js:459-464`, `302-307` and
`228-231`: `releaseAll` when present, else `triggerRelease` when
present, else nothing. -/
def stopEvents (s : SynthHandle) : List SynthEvent :=
  if s.hasReleaseAll then [SynthEvent.releaseAll]
  else if s.hasTriggerRelease then [SynthEvent.triggerRelease]
  else []

/-- The bass auto-release timer of `src/app.js:506-513`: scheduled only
when the selected instrument is `bass`. -/
def bassAutoRelease (isBass : Bool) : List SynthEvent :=
  if isBass then [SynthEvent.autoReleaseScheduled 800] else []

/-- The catch fallback of `src/app.js:514-527`: retry with
`triggerAttackRelease` and duration `"8n"` — the single note when there
is exactly one candidate, the whole candidate array otherwise.  When
the handle lacks `triggerAttackRelease`, or that call throws too, the
inner catch swallows the failure and nothing is issued. -/
def fallbackEvents (s : SynthHandle) (notes : List String) : List SynthEvent :=
  if s.hasTriggerAttackRelease && !s.attackReleaseThrows then
    if notes.length = 1 then [SynthEvent.attackReleaseSingle (notes.headD "") "8n"]
    else [SynthEvent.attackReleaseMany notes "8n"]
  else []

/-- `playNotesForFingers` (`src/app.js:456-530`) as a state-and-trace
function.  Step order follows the source: release previous notes when
the synth exists and `currentNotes` is nonempty (lines 458-467), build
`notesToPlay` (470-481), then — inside the 10 ms `setTimeout`, modelled
as the events simply following the release events in the trace — branch
on `triggerAttack`/`triggerAttackRelease` presence (489-497).  On a
successful attack (or on the `warnUnknown` branch, which cannot throw)
the source records `currentNotes = notesToPlay` and `isPlaying = true`
(499-500) and schedules the bass auto-release (506-513); when the
attack throws, those assignments are skipped and the catch fallback
runs (514-527). -/
def playNotesForFingers (s : SynthHandle) (isBass : Bool) (scale : List String)
    (positions : FingerPositions) (movedFingers : List (Fin 5))
    (st : PlaybackState) : PlayResult :=
  let doStop : Bool := s.present && !st.currentNotes.isEmpty
  let st1 : PlaybackState := if doStop then ⟨[], st.isPlaying⟩ else st
  let ev1 : List SynthEvent := if doStop then stopEvents s else []
  let notes := notesToPlay scale positions movedFingers
  if notes.isEmpty || !s.present then ⟨st1, ev1⟩
  else if s.hasTriggerAttack && !s.hasTriggerAttackRelease then
    if s.attackThrows then ⟨st1, ev1 ++ fallbackEvents s notes⟩
    else ⟨⟨notes, true⟩, ev1 ++ [SynthEvent.attackMany notes] ++ bassAutoRelease isBass⟩
  else if s.hasTriggerAttack then
    if s.attackThrows then ⟨st1, ev1 ++ fallbackEvents s notes⟩
    else
      ⟨⟨notes, true⟩,
        ev1 ++ [SynthEvent.attackSingle (notes.headD "")] ++ bassAutoRelease isBass⟩
  else ⟨⟨notes, true⟩, ev1 ++ [SynthEvent.warnUnknown] ++ bassAutoRelease isBass⟩

/-- The no-hand branch of `onHandResults` (`src/app.js:299-312`): when
the tracker reports zero hands and `synth && isPlaying`, release
everything and clear the state; otherwise do nothing. -/
def noHandStep (s : SynthHandle) (st : PlaybackState) : PlayResult :=
  if s.present && st.isPlaying then ⟨⟨[], false⟩, stopEvents s⟩ else ⟨st, []⟩

/-- The state-relevant part of `changeInstrument` (`src/app.js:222-279`):
release and dispose the old synth when one exists, then unconditionally
reset `isPlaying = false` and `currentNotes = []` (lines 242-243).  The
construction of the new synth, its fallback, and the scheduled test
note touch no modelled state. -/
def changeInstrumentStep (s : SynthHandle) (_st : PlaybackState) : PlayResult :=
  ⟨⟨[], false⟩,
    if s.present then stopEvents s ++ (if s.hasDispose then [SynthEvent.dispose] else [])
    else []⟩

/-- The playback-relevant part of `stopCamera` (`src/app.js:206-219`):
`synth.releaseAll()` when a synth exists; `currentNotes` and
`isPlaying` are not touched. -/
def stopCameraStep (s : SynthHandle) (st : PlaybackState) : PlayResult :=
  ⟨st, if s.present then [SynthEvent.releaseAll] else []⟩

/-- The per-frame session state read by `playMusicFromHandPosition`:
the playback globals, `lastNoteTime` (`src/app.js:15`) and
`lastFingerPositions` (line 17). -/
structure SessionState where
  playback : PlaybackState
  lastNoteTime : ℚ
  lastFingerPositions : Option FingerPositions

/-- `playMusicFromHandPosition` (`src/app.js:318-339`), taking the
already-extracted feature records of the current frame (the source
computes them with `calculateFingerPositions` on the raw landmarks) and
the current time `now` (`Tone.now()`).  With a previous frame on
record, moved fingers are detected and the controller runs only when
the moved list is nonempty and strictly more than `0.1` seconds have
passed since `lastNoteTime`; `lastFingerPositions` is always updated to
the current frame. -/
def playMusicFromHandPosition (s : SynthHandle) (isBass : Bool) (scale : List String)
    (palmMoving : Bool) (now : ℚ) (positions : FingerPositions)
    (st : SessionState) : SessionState × List SynthEvent :=
  match st.lastFingerPositions with
  | none => (⟨st.playback, st.lastNoteTime, some positions⟩, [])
  | some last =>
    let moved := detectMoved palmMoving positions last
    if !moved.isEmpty && decide (now - st.lastNoteTime > 0.1) then
      let r := playNotesForFingers s isBass scale positions moved st.playback
      (⟨r.state, now, some positions⟩, r.events)
    else (⟨st.playback, st.lastNoteTime, some positions⟩, [])

/-- Square-root evaluation helper for concrete rational inputs. -/
theorem sqrt_ratCast_sq (q r : ℚ) (h : q = r ^ 2) (hr : 0 ≤ r) :
    Real.sqrt ((q : ℚ) : ℝ) = (r : ℝ) := by
  subst h
  push_cast
  exact Real.sqrt_sq (by exact_mod_cast hr)

/-- Frame 1 of the end-to-end scenario: all five fingers at
`extension = 0.1`, `height = 0.5` (so `tip.y = 0.5`). -/
def F1 : FingerPositions := fun _ => ⟨0.3, 0.5, 0, 0, 0, 0, 0.1, 0.5⟩

/-- Frame 2 of the end-to-end scenario: identical to `F1` except the
index finger, whose `tip.y` dropped by `0.05` (height `0.55`) and whose
extension became `0.2`. -/
def F2 : FingerPositions := fun i =>
  if i.val = 1 then ⟨0.3, 0.45, 0, 0, 0, 0, 0.2, 0.55⟩
  else ⟨0.3, 0.5, 0, 0, 0, 0, 0.1, 0.5⟩

theorem tipMovementSq_F2_F1_zero (i : Fin 5) (hi : i.val ≠ 1) :
    tipMovementSq F2 F1 i = 0 := by
  have h2 : F2 i = ⟨0.3, 0.5, 0, 0, 0, 0, 0.1, 0.5⟩ := by
    unfold F2
    rw [if_neg hi]
  show ((F2 i).x - (F1 i).x) ^ 2 + ((F2 i).y - (F1 i).y) ^ 2 + ((F2 i).z - (F1 i).z) ^ 2 = 0
  rw [h2]
  show ((0.3 : ℚ) - 0.3) ^ 2 + ((0.5 : ℚ) - 0.5) ^ 2 + ((0 : ℚ) - 0) ^ 2 = 0
  norm_num

theorem tipMovementSq_F2_F1_one : tipMovementSq F2 F1 1 = 1 / 400 := by
  show ((0.3 : ℚ) - 0.3) ^ 2 + ((0.45 : ℚ) - 0.5) ^ 2 + ((0 : ℚ) - 0) ^ 2 = 1 / 400
  norm_num

/-- The palm test of the scenario is negative: only the index fingertip
moved, by `0.05`, so the average displacement is `0.01 ≤ 0.02`. -/
theorem not_palmMoving_F2_F1 : ¬ isPalmMoving F2 F1 := by
  unfold isPalmMoving
  rw [Fin.sum_univ_five]
  rw [tipMovementSq_F2_F1_zero 0 (by decide), tipMovementSq_F2_F1_one,
    tipMovementSq_F2_F1_zero 2 (by decide), tipMovementSq_F2_F1_zero 3 (by decide),
    tipMovementSq_F2_F1_zero 4 (by decide)]
  rw [sqrt_ratCast_sq (1 / 400) (1 / 20) (by norm_num) (by norm_num)]
  norm_num [palmMovementThreshold]

theorem isCandidate_F2_F1_false (i : Fin 5) (hi : i.val ≠ 1) :
    isCandidate F2 F1 i = false := by
  have h2 : F2 i = ⟨0.3, 0.5, 0, 0, 0, 0, 0.1, 0.5⟩ := by
    unfold F2
    rw [if_neg hi]
  have he : extensionChange F2 F1 i = 0 := by
    show |(F2 i).extension - (F1 i).extension| = 0
    rw [h2]
    show |(0.1 : ℚ) - 0.1| = 0
    norm_num
  have ht := tipMovementSq_F2_F1_zero i hi
  rw [isCandidate, he, ht]
  simp only [Bool.or_eq_false_iff, decide_eq_false_iff_not]
  norm_num [movementThreshold]

theorem isCandidate_F2_F1_one : isCandidate F2 F1 1 = true := by
  have he : extensionChange F2 F1 1 = 1 / 10 := by
    show |(0.2 : ℚ) - 0.1| = 1 / 10
    norm_num
  rw [isCandidate, he]
  simp only [Bool.or_eq_true, decide_eq_true_eq]
  left
  norm_num [movementThreshold]

theorem detectMoved_F2_F1 : detectMoved false F2 F1 = [1] := by
  unfold detectMoved
  rw [show List.finRange 5 = [0, 1, 2, 3, 4] from rfl]
  simp [List.filter, isCandidate_F2_F1_false 0 (by decide), isCandidate_F2_F1_one,
    isCandidate_F2_F1_false 2 (by decide), isCandidate_F2_F1_false 3 (by decide),
    isCandidate_F2_F1_false 4 (by decide)]

theorem clampedIndex_cMajor_55 : clampedIndex cMajor 0.55 = 4 := by
  have hfl : ⌊(0.55 : ℚ) * ((8 : ℕ) : ℚ)⌋ = 4 := by
    norm_num [Int.floor_eq_iff]
  rw [clampedIndex, show cMajor.length = 8 from rfl, hfl]
  norm_num

/-- C1.  End-to-end scenario: from the all-identical frame `F1` to
frame `F2` where only the index finger moved (`tip.y` down by `0.05`,
extension from `0.1` to `0.2`), the Motion Detector returns exactly
`[1]` (the palm test being negative), the Pitch Mapper sends height
`0.55` to index `4` of the C-major scale, i.e. `"G4"`, and the Playback
Controller candidate note list for the frame is `["G4"]` only. -/
theorem c1_end_to_end :
    detectFingerMovement false F2 F1 = [1] ∧
    ¬ isPalmMoving F2 F1 ∧
    clampedIndex cMajor 0.55 = 4 ∧
    noteForHeight cMajor 0.55 = "G4" ∧
    notesToPlay cMajor F2 (detectMoved false F2 F1) = ["G4"] := by
  have hnote : noteForHeight cMajor 0.55 = "G4" := by
    rw [noteForHeight, clampedIndex_cMajor_55]
    rfl
  refine ⟨?_, not_palmMoving_F2_F1, clampedIndex_cMajor_55, hnote, ?_⟩
  · rw [detectFingerMovement, detectMoved_F2_F1]
    rfl
  · rw [detectMoved_F2_F1, notesToPlay]
    show [noteForHeight cMajor (F2 1).height] = ["G4"]
    rw [show (F2 1).height = (0.55 : ℚ) from rfl, hnote]

/-- C2.  Pitch Mapper law on the 8-note C-major scale: the returned
note is `scale[clamp(floor(h*8), 0, 7)]`; height `0` maps to index `0`,
height `0.999` to index `7`, height `1` is clamped to index `7`; the
clamped index always stays within bounds (so the returned note is a
scale member); the index is monotone in the height; and the mapping is
deterministic. -/
theorem c2_pitch_mapper :
    clampedIndex cMajor 0 = 0 ∧
    clampedIndex cMajor (999 / 1000) = 7 ∧
    clampedIndex cMajor 1 = 7 ∧
    (∀ h : ℚ, noteForHeight cMajor h =
      cMajor.getD (max 0 (min 7 ⌊h * 8⌋)).toNat "undefined") ∧
    (∀ h : ℚ, 0 ≤ clampedIndex cMajor h ∧ clampedIndex cMajor h ≤ 7 ∧
      noteForHeight cMajor h ∈ cMajor) ∧
    (∀ h₁ h₂ : ℚ, h₁ ≤ h₂ → clampedIndex cMajor h₁ ≤ clampedIndex cMajor h₂) ∧
    (∀ h : ℚ, noteForHeight cMajor h = noteForHeight cMajor h) := by
  have hlen : cMajor.length = 8 := rfl
  have hbounds : ∀ h : ℚ, 0 ≤ clampedIndex cMajor h ∧ clampedIndex cMajor h ≤ 7 := by
    intro h
    rw [clampedIndex, hlen]
    omega
  refine ⟨?_, ?_, ?_, ?_, ?_, ?_, fun _ => rfl⟩
  · rw [clampedIndex, hlen, show ⌊(0 : ℚ) * ((8 : ℕ) : ℚ)⌋ = 0 from by norm_num]
    norm_num
  · rw [clampedIndex, hlen,
      show ⌊(999 / 1000 : ℚ) * ((8 : ℕ) : ℚ)⌋ = 7 from by norm_num [Int.floor_eq_iff]]
    norm_num
  · rw [clampedIndex, hlen,
      show ⌊(1 : ℚ) * ((8 : ℕ) : ℚ)⌋ = 8 from by norm_num [Int.floor_eq_iff]]
    norm_num
  · intro h
    rw [noteForHeight, clampedIndex, hlen]
    push_cast
    norm_num
  · intro h
    obtain ⟨h0, h7⟩ := hbounds h
    refine ⟨h0, h7, ?_⟩
    have hk : (clampedIndex cMajor h).toNat < cMajor.length := by
      rw [hlen]
      omega
    rw [noteForHeight, List.getD_eq_getElem _ _ hk]
    exact List.getElem_mem _
  · intro h₁ h₂ hle
    rw [clampedIndex, clampedIndex, hlen]
    have hf : ⌊h₁ * ((8 : ℕ) : ℚ)⌋ ≤ ⌊h₂ * ((8 : ℕ) : ℚ)⌋ :=
      Int.floor_le_floor (mul_le_mul_of_nonneg_right hle (by norm_num))
    omega

/-- Witness for C2: the monotonicity clause applied at the concrete
heights `0 ≤ 1`, with the hypothesis discharged there. -/
theorem c2_pitch_mapper_witness :
    (0 : ℚ) ≤ 1 ∧ clampedIndex cMajor 0 ≤ clampedIndex cMajor 1 :=
  ⟨by norm_num, c2_pitch_mapper.2.2.2.2.2.1 0 1 (by norm_num)⟩

/-- C3.  Candidate law of the Motion Detector: a finger is a
moved-candidate exactly when its extension change strictly exceeds
`0.8 * 0.015` or its Euclidean tip displacement strictly exceeds
`0.015`; in particular on identical frames the detector returns the
empty list whatever the palm test says. -/
theorem c3_candidate_iff :
    ∀ (cur last : FingerPositions) (i : Fin 5),
      (isCandidate cur last i = true ↔
        (extensionChange cur last i > 0.8 * 0.015 ∨
          Real.sqrt ((tipMovementSq cur last i : ℚ) : ℝ) > 0.015)) ∧
      (∀ palmMoving : Bool, detectFingerMovement palmMoving cur cur = []) := by
  intro cur last i
  constructor
  · have e : movementThreshold * (0.8 : ℚ) = 0.8 * 0.015 := by
      norm_num [movementThreshold]
    have e2 : ((movementThreshold : ℚ) : ℝ) = 0.015 := by
      norm_num [movementThreshold]
    rw [isCandidate, Bool.or_eq_true, decide_eq_true_eq, decide_eq_true_eq, e,
      ← tipMovement_gt_iff cur last i, e2]
  · intro palmMoving
    have hc : ∀ j : Fin 5, isCandidate cur cur j = false := by
      intro j
      have he : extensionChange cur cur j = 0 := by
        simp [extensionChange]
      have ht : tipMovementSq cur cur j = 0 := by
        simp [tipMovementSq]
      rw [isCandidate, he, ht]
      simp only [Bool.or_eq_false_iff, decide_eq_false_iff_not]
      constructor <;> norm_num [movementThreshold]
    rw [detectFingerMovement, detectMoved]
    have hall : ∀ j ∈ List.finRange 5,
        ¬ ((isCandidate cur cur j &&
          (!palmMoving || decide (extensionChange cur cur j > movementThreshold * 1.5))) = true) := by
      intro j _
      simp [hc j]
    rw [List.filter_eq_nil_iff.mpr hall]
    rfl

/-- C4.  Veto law of the Motion Detector: when the palm test is
positive, a finger whose extension change is at most `1.5 * 0.015` is
excluded from the moved list (even if it passed the candidate test),
while a finger whose extension change strictly exceeds `1.5 * 0.015`
is included despite the palm motion.  The boolean `b` is the palm flag
the source computes, tied to `isPalmMoving` by the first hypothesis. -/
theorem c4_palm_veto :
    ∀ (cur last : FingerPositions) (i : Fin 5) (b : Bool),
      (b = true ↔ isPalmMoving cur last) → isPalmMoving cur last →
      ((extensionChange cur last i ≤ 1.5 * 0.015 →
          (i : ℕ) ∉ detectFingerMovement b cur last) ∧
        (extensionChange cur last i > 1.5 * 0.015 →
          (i : ℕ) ∈ detectFingerMovement b cur last)) := by
  intro cur last i b hb hp
  have hbt : b = true := hb.mpr hp
  subst hbt
  have e15 : movementThreshold * (1.5 : ℚ) = 1.5 * 0.015 := by
    norm_num [movementThreshold]
  constructor
  · intro hle hmem
    rw [detectFingerMovement, List.mem_map] at hmem
    obtain ⟨j, hj, hji⟩ := hmem
    have hjeq : j = i := Fin.val_injective hji
    subst hjeq
    rw [detectMoved, List.mem_filter] at hj
    have hcond := hj.2
    simp only [Bool.not_true, Bool.false_or, Bool.and_eq_true, decide_eq_true_eq] at hcond
    rw [e15] at hcond
    linarith [hcond.2]
  · intro hgt
    have h1 : extensionChange cur last i > movementThreshold * 1.5 := by
      rw [e15]
      exact hgt
    have h0 : extensionChange cur last i > movementThreshold * 0.8 := by
      have e08 : movementThreshold * (0.8 : ℚ) = 0.012 := by
        norm_num [movementThreshold]
      rw [e08]
      linarith
    rw [detectFingerMovement, List.mem_map]
    refine ⟨i, ?_, rfl⟩
    rw [detectMoved, List.mem_filter]
    refine ⟨List.mem_finRange i, ?_⟩
    simp only [Bool.not_true, Bool.false_or, Bool.and_eq_true, decide_eq_true_eq]
    refine ⟨?_, h1⟩
    rw [isCandidate]
    simp only [Bool.or_eq_true, decide_eq_true_eq]
    exact Or.inl h0

/-- Previous frame for the C4 witness: hand at rest. -/
def W1 : FingerPositions := fun _ => ⟨0, 0.5, 0, 0, 0, 0, 0.1, 0.5⟩

/-- Current frame for the C4 witness: every fingertip translated by
`0.03` in x (palm motion `0.03 > 0.02`); only the index finger also
changed extension, by `0.1 > 1.5 * 0.015`. -/
def W2 : FingerPositions := fun i =>
  if i.val = 1 then ⟨0.03, 0.5, 0, 0, 0, 0, 0.2, 0.5⟩
  else ⟨0.03, 0.5, 0, 0, 0, 0, 0.1, 0.5⟩

theorem tipMovementSq_W2_W1 (i : Fin 5) : tipMovementSq W2 W1 i = 9 / 10000 := by
  by_cases hi : i.val = 1
  · have h2 : W2 i = ⟨0.03, 0.5, 0, 0, 0, 0, 0.2, 0.5⟩ := by
      unfold W2
      rw [if_pos hi]
    show ((W2 i).x - (W1 i).x) ^ 2 + ((W2 i).y - (W1 i).y) ^ 2 +
      ((W2 i).z - (W1 i).z) ^ 2 = 9 / 10000
    rw [h2]
    show ((0.03 : ℚ) - 0) ^ 2 + ((0.5 : ℚ) - 0.5) ^ 2 + ((0 : ℚ) - 0) ^ 2 = 9 / 10000
    norm_num
  · have h2 : W2 i = ⟨0.03, 0.5, 0, 0, 0, 0, 0.1, 0.5⟩ := by
      unfold W2
      rw [if_neg hi]
    show ((W2 i).x - (W1 i).x) ^ 2 + ((W2 i).y - (W1 i).y) ^ 2 +
      ((W2 i).z - (W1 i).z) ^ 2 = 9 / 10000
    rw [h2]
    show ((0.03 : ℚ) - 0) ^ 2 + ((0.5 : ℚ) - 0.5) ^ 2 + ((0 : ℚ) - 0) ^ 2 = 9 / 10000
    norm_num

theorem palmMoving_W2_W1 : isPalmMoving W2 W1 := by
  unfold isPalmMoving
  rw [Fin.sum_univ_five, tipMovementSq_W2_W1 0, tipMovementSq_W2_W1 1,
    tipMovementSq_W2_W1 2, tipMovementSq_W2_W1 3, tipMovementSq_W2_W1 4]
  rw [sqrt_ratCast_sq (9 / 10000) (3 / 100) (by norm_num) (by norm_num)]
  norm_num [palmMovementThreshold]

/-- Witness for C4 at the concrete frames `W1`, `W2`: the palm test is
positive, the thumb (extension change `0`) is vetoed out, the index
finger (extension change `0.1`) overrides the veto. -/
theorem c4_palm_veto_witness :
    isPalmMoving W2 W1 ∧
    extensionChange W2 W1 0 ≤ 1.5 * 0.015 ∧
    extensionChange W2 W1 1 > 1.5 * 0.015 ∧
    (0 : ℕ) ∉ detectFingerMovement true W2 W1 ∧
    (1 : ℕ) ∈ detectFingerMovement true W2 W1 := by
  have hp := palmMoving_W2_W1
  have hb : (true = true) ↔ isPalmMoving W2 W1 := ⟨fun _ => hp, fun _ => rfl⟩
  have he0 : extensionChange W2 W1 0 = 0 := by
    show |(0.1 : ℚ) - 0.1| = 0
    norm_num
  have he1 : extensionChange W2 W1 1 = 1 / 10 := by
    show |(0.2 : ℚ) - 0.1| = 1 / 10
    norm_num
  refine ⟨hp, ?_, ?_, ?_, ?_⟩
  · rw [he0]
    norm_num
  · rw [he1]
    norm_num
  · exact (c4_palm_veto W2 W1 0 true hb hp).1 (by rw [he0]; norm_num)
  · exact (c4_palm_veto W2 W1 1 true hb hp).2 (by rw [he1]; norm_num)

theorem stopEvents_isStop (s : SynthHandle) : ∀ e ∈ stopEvents s, e.isStop = true := by
  intro e he
  rw [stopEvents] at he
  by_cases h1 : s.hasReleaseAll = true
  · rw [if_pos h1] at he
    rw [List.mem_singleton.mp he]
    rfl
  · rw [if_neg h1] at he
    by_cases h2 : s.hasTriggerRelease = true
    · rw [if_pos h2] at he
      rw [List.mem_singleton.mp he]
      rfl
    · rw [if_neg h2] at he
      exact absurd he (List.not_mem_nil e)

theorem stopEvents_not_isStart (s : SynthHandle) :
    ∀ e ∈ stopEvents s, e.isStart = false := by
  intro e he
  rw [stopEvents] at he
  by_cases h1 : s.hasReleaseAll = true
  · rw [if_pos h1] at he
    rw [List.mem_singleton.mp he]
    rfl
  · rw [if_neg h1] at he
    by_cases h2 : s.hasTriggerRelease = true
    · rw [if_pos h2] at he
      rw [List.mem_singleton.mp he]
      rfl
    · rw [if_neg h2] at he
      exact absurd he (List.not_mem_nil e)

theorem stopEvents_ne_nil (s : SynthHandle)
    (hr : s.hasReleaseAll = true ∨ s.hasTriggerRelease = true) : stopEvents s ≠ [] := by
  rw [stopEvents]
  rcases hr with h | h
  · rw [if_pos h]
    simp
  · by_cases h1 : s.hasReleaseAll = true
    · rw [if_pos h1]
      simp
    · rw [if_neg h1, if_pos h]
      simp

theorem bassAutoRelease_not_isStop (b : Bool) :
    ∀ e ∈ bassAutoRelease b, e.isStop = false := by
  intro e he
  rw [bassAutoRelease] at he
  by_cases hb : b = true
  · rw [if_pos hb] at he
    rw [List.mem_singleton.mp he]
    rfl
  · rw [if_neg hb] at he
    exact absurd he (List.not_mem_nil e)

theorem notesToPlay_ne_nil (scale : List String) (positions : FingerPositions)
    (moved : List (Fin 5)) (hm : moved ≠ []) :
    (notesToPlay scale positions moved).isEmpty = false := by
  cases moved with
  | nil => exact absurd rfl hm
  | cons a l => rfl

/-- Characterization of `playNotesForFingers` on the successful path
(synth present, `triggerAttack` available and not throwing): previous
notes are released first, then the attack — over the whole candidate
list only when `triggerAttackRelease` is absent — and the bass timer. -/
theorem playNotes_success_eq (s : SynthHandle) (isBass : Bool) (scale : List String)
    (positions : FingerPositions) (moved : List (Fin 5)) (st : PlaybackState)
    (hm : moved ≠ []) (hp : s.present = true) (ha : s.hasTriggerAttack = true)
    (hth : s.attackThrows = false) :
    playNotesForFingers s isBass scale positions moved st =
      ⟨⟨notesToPlay scale positions moved, true⟩,
        (if s.present && !st.currentNotes.isEmpty then stopEvents s else []) ++
          (if s.hasTriggerAttackRelease then
            [SynthEvent.attackSingle ((notesToPlay scale positions moved).headD "")]
          else [SynthEvent.attackMany (notesToPlay scale positions moved)]) ++
          bassAutoRelease isBass⟩ := by
  have hnotes := notesToPlay_ne_nil scale positions moved hm
  cases htar : s.hasTriggerAttackRelease with
  | true => simp [playNotesForFingers, hp, ha, hth, htar, hnotes]
  | false => simp [playNotesForFingers, hp, ha, hth, htar, hnotes]

/-- Characterization of `playNotesForFingers` when `triggerAttack`
throws: `currentNotes` stays cleared, `isPlaying` is untouched, and
after the release prefix only the catch fallback runs. -/
theorem playNotes_throw_eq (s : SynthHandle) (isBass : Bool) (scale : List String)
    (positions : FingerPositions) (moved : List (Fin 5)) (st : PlaybackState)
    (hm : moved ≠ []) (hp : s.present = true) (ha : s.hasTriggerAttack = true)
    (hth : s.attackThrows = true) :
    playNotesForFingers s isBass scale positions moved st =
      ⟨⟨[], st.isPlaying⟩,
        (if s.present && !st.currentNotes.isEmpty then stopEvents s else []) ++
          fallbackEvents s (notesToPlay scale positions moved)⟩ := by
  have hnotes := notesToPlay_ne_nil scale positions moved hm
  obtain ⟨cn, ip⟩ := st
  cases htar : s.hasTriggerAttackRelease with
  | true =>
    cases cn with
    | nil => simp [playNotesForFingers, hp, ha, hth, htar, hnotes]
    | cons a l => simp [playNotesForFingers, hp, ha, hth, htar, hnotes]
  | false =>
    cases cn with
    | nil => simp [playNotesForFingers, hp, ha, hth, htar, hnotes]
    | cons a l => simp [playNotesForFingers, hp, ha, hth, htar, hnotes]

/-- A handle shaped like the polyphonic instruments the repository
creates (`Tone.PolySynth` and the sampler piano): supports concurrent
notes and exposes `releaseAll`, `triggerRelease`, `triggerAttack`,
`triggerAttackRelease` and `dispose` — the source itself drives these
synths through `triggerAttackRelease` in the instrument test at
`src/app.js:261`.  No call throws. -/
def polySynthHandle : SynthHandle :=
  ⟨true, true, true, true, true, true, true, false, false⟩

/-- The same polyphonic handle but with a throwing `triggerAttack`
(the failure C8 is about); `triggerAttackRelease` still works. -/
def throwingSynthHandle : SynthHandle :=
  ⟨true, true, true, true, true, true, true, true, false⟩

/-- A current frame whose thumb height is `0.1` (note `"C4"`) and whose
other fingers sit at height `0.3` (note `"E4"`). -/
def P3 : FingerPositions := fun i =>
  if i.val = 0 then ⟨0, 0, 0, 0, 0, 0, 0, 0.1⟩ else ⟨0, 0, 0, 0, 0, 0, 0, 0.3⟩

theorem noteForHeight_cMajor_01 : noteForHeight cMajor 0.1 = "C4" := by
  have hfl : ⌊(0.1 : ℚ) * ((8 : ℕ) : ℚ)⌋ = 0 := by
    norm_num [Int.floor_eq_iff]
  have hc : clampedIndex cMajor 0.1 = 0 := by
    rw [clampedIndex, show cMajor.length = 8 from rfl, hfl]
    norm_num
  rw [noteForHeight, hc]
  rfl

theorem noteForHeight_cMajor_03 : noteForHeight cMajor 0.3 = "E4" := by
  have hfl : ⌊(0.3 : ℚ) * ((8 : ℕ) : ℚ)⌋ = 2 := by
    norm_num [Int.floor_eq_iff]
  have hc : clampedIndex cMajor 0.3 = 2 := by
    rw [clampedIndex, show cMajor.length = 8 from rfl, hfl]
    norm_num
  rw [noteForHeight, hc]
  rfl

theorem notesToPlay_P3 : notesToPlay cMajor P3 [0, 1] = ["C4", "E4"] := by
  rw [notesToPlay]
  show [noteForHeight cMajor (P3 0).height, noteForHeight cMajor (P3 1).height] = ["C4", "E4"]
  rw [show (P3 0).height = (0.1 : ℚ) from rfl, show (P3 1).height = (0.3 : ℚ) from rfl,
    noteForHeight_cMajor_01, noteForHeight_cMajor_03]

/-- C5.  Retrigger invariant of the Playback Controller: on any call
with a nonempty moved-finger list against a working synthesizer (one
that exposes a release method and whose `triggerAttack` does not
throw), the command trace splits into a prefix of stop commands —
nonempty whenever notes were recorded as sounding — followed by
commands none of which stop notes, among them the note start; and the
resulting state records exactly the newly triggered note list as
current, with `isPlaying` set.  No two gesture note sets are ever
recorded as sounding at once. -/
theorem c5_retrigger (s : SynthHandle) (isBass : Bool) (scale : List String)
    (positions : FingerPositions) (moved : List (Fin 5)) (st : PlaybackState)
    (hm : moved ≠ []) (hp : s.present = true) (ha : s.hasTriggerAttack = true)
    (hth : s.attackThrows = false)
    (hr : s.hasReleaseAll = true ∨ s.hasTriggerRelease = true) :
    (playNotesForFingers s isBass scale positions moved st).state =
      ⟨notesToPlay scale positions moved, true⟩ ∧
    ∃ pre post,
      (playNotesForFingers s isBass scale positions moved st).events = pre ++ post ∧
      (∀ e ∈ pre, e.isStop = true) ∧
      (∀ e ∈ post, e.isStop = false) ∧
      (st.currentNotes ≠ [] → pre ≠ []) ∧
      (∃ e ∈ post, e.isStart = true) := by
  rw [playNotes_success_eq s isBass scale positions moved st hm hp ha hth]
  refine ⟨rfl,
    (if s.present && !st.currentNotes.isEmpty then stopEvents s else []),
    (if s.hasTriggerAttackRelease then
      [SynthEvent.attackSingle ((notesToPlay scale positions moved).headD "")]
    else [SynthEvent.attackMany (notesToPlay scale positions moved)]) ++
      bassAutoRelease isBass,
    List.append_assoc _ _ _, ?_, ?_, ?_, ?_⟩
  · intro e he
    by_cases hc : (s.present && !st.currentNotes.isEmpty) = true
    · rw [if_pos hc] at he
      exact stopEvents_isStop s e he
    · rw [if_neg hc] at he
      exact absurd he (List.not_mem_nil e)
  · intro e he
    rcases List.mem_append.mp he with h | h
    · by_cases htar : s.hasTriggerAttackRelease = true
      · rw [if_pos htar] at h
        rw [List.mem_singleton.mp h]
        rfl
      · rw [if_neg htar] at h
        rw [List.mem_singleton.mp h]
        rfl
    · exact bassAutoRelease_not_isStop isBass e h
  · intro hne
    have hie : st.currentNotes.isEmpty = false := by
      cases h : st.currentNotes.isEmpty
      · rfl
      · exact absurd (List.isEmpty_iff.mp h) hne
    have hcond : (s.present && !st.currentNotes.isEmpty) = true := by
      rw [hp, hie]
      rfl
    rw [if_pos hcond]
    exact stopEvents_ne_nil s hr
  · by_cases htar : s.hasTriggerAttackRelease = true
    · refine ⟨SynthEvent.attackSingle ((notesToPlay scale positions moved).headD ""), ?_, rfl⟩
      apply List.mem_append_left
      rw [if_pos htar]
      exact List.mem_singleton_self _
    · refine ⟨SynthEvent.attackMany (notesToPlay scale positions moved), ?_, rfl⟩
      apply List.mem_append_left
      rw [if_neg htar]
      exact List.mem_singleton_self _

/-- Witness for C5 at a concrete call: polyphonic handle, previous
notes `["A4"]` sounding, thumb and index moved. -/
theorem c5_retrigger_witness :
    (playNotesForFingers polySynthHandle false cMajor P3 [0, 1] ⟨["A4"], true⟩).state =
      ⟨notesToPlay cMajor P3 [0, 1], true⟩ ∧
    ∃ pre post,
      (playNotesForFingers polySynthHandle false cMajor P3 [0, 1] ⟨["A4"], true⟩).events =
        pre ++ post ∧
      (∀ e ∈ pre, e.isStop = true) ∧
      (∀ e ∈ post, e.isStop = false) ∧
      ((⟨["A4"], true⟩ : PlaybackState).currentNotes ≠ [] → pre ≠ []) ∧
      (∃ e ∈ post, e.isStart = true) :=
  c5_retrigger polySynthHandle false cMajor P3 [0, 1] ⟨["A4"], true⟩
    (by simp) rfl rfl rfl (Or.inl rfl)

/-- C7.  Evaluation at the failing input: a handle that supports
concurrent notes but — like every polyphonic synth this repository
creates, which the source itself calls `triggerAttackRelease` on at
`src/app.js:261` — also exposes `triggerAttackRelease`.  The branch
guard `synth.triggerAttack && !synth.triggerAttackRelease`
(`src/app.js:489`) then sends such a handle down the branch the source
comments as monophonic: only the first candidate note `"C4"` is
started, even though `currentNotes` records both candidates.  This
contradicts the claim (and the comments of the source itself) that a
concurrent-notes handle receives the whole chord. -/
theorem c7_polyphonic_code_bug :
    polySynthHandle.supportsConcurrentNotes = true ∧
    notesToPlay cMajor P3 [0, 1] = ["C4", "E4"] ∧
    (playNotesForFingers polySynthHandle false cMajor P3 [0, 1] ⟨[], false⟩).events =
      [SynthEvent.attackSingle "C4"] ∧
    (playNotesForFingers polySynthHandle false cMajor P3 [0, 1] ⟨[], false⟩).state.currentNotes =
      ["C4", "E4"] := by
  have heq := playNotes_success_eq polySynthHandle false cMajor P3 [0, 1] ⟨[], false⟩
    (by simp) rfl rfl rfl
  rw [notesToPlay_P3] at heq
  refine ⟨rfl, notesToPlay_P3, ?_, ?_⟩
  · rw [heq]
    rfl
  · rw [heq]

/-- Counterexample to C8 as stated: with two candidate notes and a
throwing `triggerAttack`, the catch fallback retries the full chord
(`triggerAttackRelease(notesToPlay, "8n")`, `src/app.js:521`), not the
first candidate note only. -/
theorem c8_counterexample :
    (playNotesForFingers throwingSynthHandle false cMajor P3 [0, 1] ⟨[], false⟩).events =
      [SynthEvent.attackReleaseMany ["C4", "E4"] "8n"] ∧
    SynthEvent.attackReleaseMany ["C4", "E4"] "8n" ≠
      SynthEvent.attackReleaseSingle "C4" "8n" := by
  constructor
  · have heq := playNotes_throw_eq throwingSynthHandle false cMajor P3 [0, 1] ⟨[], false⟩
      (by simp) rfl rfl rfl
    rw [notesToPlay_P3] at heq
    rw [heq]
    rfl
  · intro h
    exact SynthEvent.noConfusion h

/-- C8 amended.  When `triggerAttack` throws, the controller clears
`currentNotes`, leaves `isPlaying` as it was, and falls back to a basic
`triggerAttackRelease` trigger with duration `"8n"`: the single note
when there is exactly one candidate, the full candidate list otherwise;
when the fallback is unavailable or throws too, the inner catch
swallows it and no note starts.  In every case the call returns
normally, so a start failure never propagates past the frame
boundary. -/
theorem c8_fallback_amended (s : SynthHandle) (isBass : Bool) (scale : List String)
    (positions : FingerPositions) (moved : List (Fin 5)) (st : PlaybackState)
    (hm : moved ≠ []) (hp : s.present = true) (ha : s.hasTriggerAttack = true)
    (hth : s.attackThrows = true) :
    (playNotesForFingers s isBass scale positions moved st).state.currentNotes = [] ∧
    (playNotesForFingers s isBass scale positions moved st).state.isPlaying = st.isPlaying ∧
    (s.hasTriggerAttackRelease = true → s.attackReleaseThrows = false →
      (playNotesForFingers s isBass scale positions moved st).events =
        (if s.present && !st.currentNotes.isEmpty then stopEvents s else []) ++
          (if (notesToPlay scale positions moved).length = 1 then
            [SynthEvent.attackReleaseSingle ((notesToPlay scale positions moved).headD "") "8n"]
          else [SynthEvent.attackReleaseMany (notesToPlay scale positions moved) "8n"])) ∧
    ((s.hasTriggerAttackRelease = false ∨ s.attackReleaseThrows = true) →
      (playNotesForFingers s isBass scale positions moved st).events =
        (if s.present && !st.currentNotes.isEmpty then stopEvents s else []) ∧
      ∀ e ∈ (playNotesForFingers s isBass scale positions moved st).events,
        e.isStart = false) := by
  rw [playNotes_throw_eq s isBass scale positions moved st hm hp ha hth]
  refine ⟨rfl, rfl, ?_, ?_⟩
  · intro h1 h2
    rw [fallbackEvents, h1, h2]
    simp
  · intro hor
    have hfb : fallbackEvents s (notesToPlay scale positions moved) = [] := by
      rw [fallbackEvents]
      rcases hor with h | h
      · rw [h]
        simp
      · rw [h]
        simp
    rw [hfb, List.append_nil]
    refine ⟨rfl, ?_⟩
    intro e he
    by_cases hc : (s.present && !st.currentNotes.isEmpty) = true
    · rw [if_pos hc] at he
      exact stopEvents_not_isStart s e he
    · rw [if_neg hc] at he
      exact absurd he (List.not_mem_nil e)

/-- Witness for the amended C8 at a concrete call: previous notes
`["A4"]` sounding, two candidates, `triggerAttack` throwing. -/
theorem c8_fallback_amended_witness :
    (playNotesForFingers throwingSynthHandle false cMajor P3 [0, 1] ⟨["A4"], true⟩).state.currentNotes
      = [] ∧
    (playNotesForFingers throwingSynthHandle false cMajor P3 [0, 1] ⟨["A4"], true⟩).events =
      [SynthEvent.releaseAll, SynthEvent.attackReleaseMany ["C4", "E4"] "8n"] := by
  have h := c8_fallback_amended throwingSynthHandle false cMajor P3 [0, 1] ⟨["A4"], true⟩
    (by simp) rfl rfl rfl
  refine ⟨h.1, ?_⟩
  have h3 := h.2.2.1 rfl rfl
  rw [notesToPlay_P3] at h3
  rw [h3]
  rfl

/-- C6.  No-hand transition: on a frame with zero hands while notes
are sounding, the controller emits the release commands and clears the
state to `⟨[], false⟩`; the step is idempotent — a second no-hand frame
on the cleared state (and any frame with `isPlaying = false`) changes
nothing and emits nothing, so the stop-and-clear happens exactly once
per contiguous no-hand run; the release command list is nonempty for
any handle with a release method. -/
theorem c6_no_hand (s : SynthHandle) (st : PlaybackState)
    (hp : s.present = true) (hi : st.isPlaying = true) :
    noHandStep s st = ⟨⟨[], false⟩, stopEvents s⟩ ∧
    noHandStep s (noHandStep s st).state = ⟨(noHandStep s st).state, []⟩ ∧
    (∀ st2 : PlaybackState, st2.isPlaying = false → noHandStep s st2 = ⟨st2, []⟩) ∧
    ((s.hasReleaseAll = true ∨ s.hasTriggerRelease = true) → stopEvents s ≠ []) := by
  have h1 : noHandStep s st = ⟨⟨[], false⟩, stopEvents s⟩ := by
    rw [noHandStep, hp, hi]
    rfl
  have h2 : ∀ st2 : PlaybackState, st2.isPlaying = false → noHandStep s st2 = ⟨st2, []⟩ := by
    intro st2 hst2
    rw [noHandStep, hst2]
    simp
  refine ⟨h1, ?_, h2, fun hr => stopEvents_ne_nil s hr⟩
  rw [h1]
  exact h2 ⟨[], false⟩ rfl

/-- Witness for C6 at a concrete no-hand run: the first frame emits
`releaseAll` and clears; the second frame is a no-op. -/
theorem c6_no_hand_witness :
    noHandStep polySynthHandle ⟨["G4"], true⟩ = ⟨⟨[], false⟩, [SynthEvent.releaseAll]⟩ ∧
    noHandStep polySynthHandle ⟨[], false⟩ = ⟨⟨[], false⟩, []⟩ := by
  have h := c6_no_hand polySynthHandle ⟨["G4"], true⟩ rfl rfl
  refine ⟨?_, h.2.2.1 ⟨[], false⟩ rfl⟩
  rw [h.1]
  rfl

/-- Counterexample to C9 as stated: after a camera stop with notes
recorded as sounding, the playback state is not reset — `stopCamera`
(`src/app.js:206-219`) releases the notes of the synthesizer but never
touches `currentNotes` or `isPlaying`. -/
theorem c9_counterexample :
    ¬ ((stopCameraStep polySynthHandle ⟨["G4"], true⟩).state.currentNotes = [] ∧
      (stopCameraStep polySynthHandle ⟨["G4"], true⟩).state.isPlaying = false) := by
  intro h
  have h1 := h.1
  simp [stopCameraStep] at h1

/-- C9 amended.  After every instrument change `currentNotes` is empty
and `isPlaying` is false; a camera stop issues `releaseAll` on the
synthesizer when one exists but leaves the playback state exactly as it
was. -/
theorem c9_state_reset_amended (s : SynthHandle) (st : PlaybackState) :
    (changeInstrumentStep s st).state.currentNotes = [] ∧
    (changeInstrumentStep s st).state.isPlaying = false ∧
    (stopCameraStep s st).state = st ∧
    (stopCameraStep s st).events = (if s.present then [SynthEvent.releaseAll] else []) :=
  ⟨rfl, rfl, rfl, rfl⟩

/-- C10.  Debounce of the frame orchestrator: with a previous frame on
record and moved fingers detected, nothing is played and the playback
state, `lastNoteTime` and the event trace are all unchanged whenever no
more than `0.1` seconds have passed since the last trigger; only
`lastFingerPositions` advances to the current frame. -/
theorem c10_debounce (s : SynthHandle) (isBass : Bool) (scale : List String)
    (palmMoving : Bool) (now : ℚ) (positions : FingerPositions) (st : SessionState)
    (last : FingerPositions)
    (hl : st.lastFingerPositions = some last)
    (_hm : detectMoved palmMoving positions last ≠ [])
    (ht : now - st.lastNoteTime ≤ 0.1) :
    playMusicFromHandPosition s isBass scale palmMoving now positions st =
      (⟨st.playback, st.lastNoteTime, some positions⟩, []) := by
  obtain ⟨pb, lnt, lfp⟩ := st
  simp only at hl ht
  subst hl
  have hd : (decide (now - lnt > 0.1)) = false := decide_eq_false (not_lt.mpr ht)
  simp [playMusicFromHandPosition, hd]

/-- Witness for C10: the scenario frames with moved finger list `[1]`
arriving `0.05` seconds after the previous trigger produce no events
and leave the playback state untouched. -/
theorem c10_debounce_witness :
    playMusicFromHandPosition polySynthHandle false cMajor false (1 / 20) F2
        ⟨⟨[], false⟩, 0, some F1⟩ =
      (⟨⟨[], false⟩, 0, some F2⟩, []) := by
  have hm : detectMoved false F2 F1 ≠ [] := by
    rw [detectMoved_F2_F1]
    simp
  exact c10_debounce polySynthHandle false cMajor false (1 / 20) F2
    ⟨⟨[], false⟩, 0, some F1⟩ F1 rfl hm (by show (1 / 20 : ℚ) - 0 ≤ 0.1; norm_num)

/-- Witness for C3: the identical-frames clause applied at the
concrete frame `F2`. -/
theorem c3_candidate_iff_witness : detectFingerMovement false F2 F2 = [] :=
  (c3_candidate_iff F2 F1 1).2 false

/-- Witness for the amended C9 at a concrete state with sounding
notes. -/
theorem c9_state_reset_amended_witness :
    (changeInstrumentStep polySynthHandle ⟨["G4"], true⟩).state.currentNotes = [] ∧
    (stopCameraStep polySynthHandle ⟨["G4"], true⟩).state = ⟨["G4"], true⟩ := by
  have h := c9_state_reset_amended polySynthHandle ⟨["G4"], true⟩
  exact ⟨h.1, h.2.2.1⟩
